import Mathlib

/-!
Verification of the beacon-state accessor and clone layer of the `state`
package (`Clone`, one read accessor per field of the canonical state).

Shallow embedding: a Go byte slice (or `[]uint64` slice) is a location
(`Loc`) into an explicit heap of backing arrays, so that aliasing between
the store's internal storage and accessor results is expressible.  Struct
scalars are `Nat`/`Bool`.  Accessors that allocate fresh backing arrays
thread the heap explicitly; accessors that only copy slice headers are
pure functions returning the same locations (this is exactly where
aliasing with the store arises).
-/

abbrev Loc := Nat

/-- Heap of slice backing arrays.  A Go slice value is a `Loc` indexing
into it; the arrays hold `Nat` elements (bytes or uint64 values). -/
structure Heap where
  arrays : List (List Nat)

/-- Number of allocated arrays. -/
def Heap.size (h : Heap) : Nat := h.arrays.length

/-- Dereference a slice: the contents of its backing array. -/
def Heap.read (h : Heap) (l : Loc) : List Nat := h.arrays.getD l []

/-- Allocate a fresh backing array holding `v`; returns its location. -/
def Heap.alloc (h : Heap) (v : List Nat) : Loc × Heap :=
  (h.arrays.length, ⟨h.arrays ++ [v]⟩)

/-- Overwrite the backing array at `l` (models in-place mutation of a
slice's contents by whoever holds a reference to it). -/
def Heap.write (h : Heap) (l : Loc) (v : List Nat) : Heap :=
  ⟨h.arrays.set l v⟩

/-- Go `copy(dst, src)`: the resulting contents of `dst`.  The first
`min |dst| |src|` elements come from `src`; the rest keep `dst`'s
original elements. -/
def goCopy (dst src : List Nat) : List Nat :=
  src.take dst.length ++ dst.drop src.length

/-- The root-normalization pattern used on every root read path of the
source (`tmpRt := [32]byte{}` / `var x [32]byte`, then
`copy(tmpRt[:], r)`, then the slice `tmpRt[:]` is returned): the input
truncated to 32 elements and zero-filled on the right. -/
def normalize32 (src : List Nat) : List Nat :=
  goCopy (List.replicate 32 0) src

/-- `pbp2p.Fork`: two 4-byte version tags (byte slices) and an epoch. -/
structure pbp2p.Fork where
  previousVersion : Loc
  currentVersion : Loc
  epoch : Nat
  deriving DecidableEq

/-- `ethpb.BeaconBlockHeader`: slot and three root byte slices. -/
structure ethpb.BeaconBlockHeader where
  slot : Nat
  parentRoot : Loc
  stateRoot : Loc
  bodyRoot : Loc
  deriving DecidableEq

/-- `ethpb.Eth1Data`: deposit root, deposit count, block hash. -/
structure ethpb.Eth1Data where
  depositRoot : Loc
  depositCount : Nat
  blockHash : Loc
  deriving DecidableEq

/-- `ethpb.Validator`: two variable-length byte buffers and six scalars. -/
structure ethpb.Validator where
  publicKey : Loc
  withdrawalCredentials : Loc
  effectiveBalance : Nat
  slashed : Bool
  activationEligibilityEpoch : Nat
  activationEpoch : Nat
  exitEpoch : Nat
  withdrawableEpoch : Nat
  deriving DecidableEq

/-- `ethpb.Checkpoint`: an epoch and a root byte slice. -/
structure ethpb.Checkpoint where
  epoch : Nat
  root : Loc
  deriving DecidableEq

/-- Modelled from the spec: the `pbp2p.PendingAttestation` message type is
not under the sources given; per the spec it is an opaque composite with
nested variable-length sub-structures (bitfields, data payloads) that must
be deep-copied atomically.  Modelled as an aggregation bitfield buffer, a
nested payload root buffer, and two scalar fields. -/
structure pbp2p.PendingAttestation where
  aggregationBits : Loc
  beaconBlockRoot : Loc
  inclusionDelay : Nat
  proposerIndex : Nat
  deriving DecidableEq

/-- `pbp2p.BeaconState`: the protobuf record backing the store, and also
the record type produced by `Clone`. -/
structure pbp2p.BeaconState where
  genesisTime : Nat
  slot : Nat
  fork : pbp2p.Fork
  latestBlockHeader : ethpb.BeaconBlockHeader
  blockRoots : List Loc
  stateRoots : List Loc
  historicalRoots : List Loc
  eth1Data : ethpb.Eth1Data
  eth1DataVotes : List ethpb.Eth1Data
  eth1DepositIndex : Nat
  validators : List ethpb.Validator
  balances : Loc
  randaoMixes : List Loc
  slashings : Loc
  previousEpochAttestations : List pbp2p.PendingAttestation
  currentEpochAttestations : List pbp2p.PendingAttestation
  justificationBits : Loc
  previousJustifiedCheckpoint : ethpb.Checkpoint
  currentJustifiedCheckpoint : ethpb.Checkpoint
  finalizedCheckpoint : ethpb.Checkpoint

/-- The store wrapper: `type BeaconState struct { state *pbp2p.BeaconState }`. -/
structure BeaconState where
  state : pbp2p.BeaconState

/-- `GenesisTime of the beacon state as a uint64.` -/
def BeaconState.GenesisTime (b : BeaconState) : Nat := b.state.genesisTime

/-- `Slot of the current beacon chain state.` -/
def BeaconState.Slot (b : BeaconState) : Nat := b.state.slot

/-- `Fork version of the beacon chain.`  A fresh `Fork` struct whose two
version slice headers are copied from the store (sharing the backing
arrays). -/
def BeaconState.Fork (b : BeaconState) : pbp2p.Fork :=
  ⟨b.state.fork.previousVersion, b.state.fork.currentVersion, b.state.fork.epoch⟩

/-- `LatestBlockHeader stored within the beacon state.`  Note the source
fills the local `bodyRoot` array from `b.state.LatestBlockHeader.StateRoot`
and the local `stateRoot` array from `b.state.LatestBlockHeader.BodyRoot`,
then assigns `hdr.BodyRoot = bodyRoot[:]` and `hdr.StateRoot = stateRoot[:]`:
the embedding reproduces this wiring exactly. -/
def BeaconState.LatestBlockHeader (b : BeaconState) (h : Heap) :
    ethpb.BeaconBlockHeader × Heap :=
  let src := b.state.latestBlockHeader
  let parentRoot := h.alloc (normalize32 (h.read src.parentRoot))
  let bodyRoot := parentRoot.2.alloc (normalize32 (parentRoot.2.read src.stateRoot))
  let stateRoot := bodyRoot.2.alloc (normalize32 (bodyRoot.2.read src.bodyRoot))
  (⟨src.slot, parentRoot.1, stateRoot.1, bodyRoot.1⟩, stateRoot.2)

/-- The per-element loop body shared by `BlockRoots`, `StateRoots`,
`HistoricalRoots` and `RandaoMixes`: for each stored root slice, allocate
a fresh 32-byte array, `copy` the stored bytes into it, and return the
fresh slice. -/
def copyRoots (h : Heap) : List Loc → List Loc × Heap
  | [] => ([], h)
  | l :: rest =>
    let a := h.alloc (normalize32 (h.read l))
    let r := copyRoots a.2 rest
    (a.1 :: r.1, r.2)

/-- `BlockRoots kept track of in the beacon state.` -/
def BeaconState.BlockRoots (b : BeaconState) (h : Heap) : List Loc × Heap :=
  copyRoots h b.state.blockRoots

/-- `StateRoots kept track of in the beacon state.` -/
def BeaconState.StateRoots (b : BeaconState) (h : Heap) : List Loc × Heap :=
  copyRoots h b.state.stateRoots

/-- `HistoricalRoots based on epochs stored in the beacon state.` -/
def BeaconState.HistoricalRoots (b : BeaconState) (h : Heap) : List Loc × Heap :=
  copyRoots h b.state.historicalRoots

/-- `Eth1Data corresponding to the proof-of-work chain information stored
in the beacon state.` -/
def BeaconState.Eth1Data (b : BeaconState) (h : Heap) : ethpb.Eth1Data × Heap :=
  let depositRoot := h.alloc (normalize32 (h.read b.state.eth1Data.depositRoot))
  let blockHash := depositRoot.2.alloc (normalize32 (depositRoot.2.read b.state.eth1Data.blockHash))
  (⟨depositRoot.1, b.state.eth1Data.depositCount, blockHash.1⟩, blockHash.2)

/-- The loop body of `Eth1DataVotes`: each returned vote is built with
`DepositCount: b.state.Eth1Data.DepositCount` (the store's top-level
eth1 data count, passed here as `cnt`), while its two root buffers are
normalized copies of the i-th stored vote's buffers — exactly as in the
source. -/
def copyVotes (cnt : Nat) (h : Heap) : List ethpb.Eth1Data → List ethpb.Eth1Data × Heap
  | [] => ([], h)
  | v :: rest =>
    let depositRoot := h.alloc (normalize32 (h.read v.depositRoot))
    let blockHash := depositRoot.2.alloc (normalize32 (depositRoot.2.read v.blockHash))
    let r := copyVotes cnt blockHash.2 rest
    (⟨depositRoot.1, cnt, blockHash.1⟩ :: r.1, r.2)

/-- `Eth1DataVotes corresponds to votes from eth2 on the canonical
proof-of-work chain data retrieved from eth1.` -/
def BeaconState.Eth1DataVotes (b : BeaconState) (h : Heap) :
    List ethpb.Eth1Data × Heap :=
  copyVotes b.state.eth1Data.depositCount h b.state.eth1DataVotes

/-- `Eth1DepositIndex corresponds to the index of the deposit made to the
validator deposit contract at the time of this state's eth1 data.` -/
def BeaconState.Eth1DepositIndex (b : BeaconState) : Nat :=
  b.state.eth1DepositIndex

/-- `Validators participating in consensus on the beacon chain.`  Each
returned `Validator` struct is fresh, but its `PublicKey` and
`WithdrawalCredentials` slice headers are copied from the stored record,
so the byte buffers are shared with the store. -/
def BeaconState.Validators (b : BeaconState) : List ethpb.Validator :=
  b.state.validators.map (fun val =>
    ⟨val.publicKey, val.withdrawalCredentials, val.effectiveBalance, val.slashed,
     val.activationEligibilityEpoch, val.activationEpoch, val.exitEpoch,
     val.withdrawableEpoch⟩)

/-- `Balances of validators participating in consensus on the beacon
chain.`  `make([]uint64, len)` then `copy`. -/
def BeaconState.Balances (b : BeaconState) (h : Heap) : Loc × Heap :=
  h.alloc (goCopy (List.replicate (h.read b.state.balances).length 0)
    (h.read b.state.balances))

/-- `RandaoMixes of block proposers on the beacon chain.` -/
def BeaconState.RandaoMixes (b : BeaconState) (h : Heap) : List Loc × Heap :=
  copyRoots h b.state.randaoMixes

/-- `Slashings of validators on the beacon chain.` -/
def BeaconState.Slashings (b : BeaconState) (h : Heap) : Loc × Heap :=
  h.alloc (goCopy (List.replicate (h.read b.state.slashings).length 0)
    (h.read b.state.slashings))

/-- The loop body of the two attestation accessors.  Modelled from the
spec: `proto.Clone` performs a full deep copy of the message including
every nested variable-length buffer, preserving contents exactly (no
normalization), so each element's two buffers are freshly allocated with
identical contents. -/
def cloneAtts (h : Heap) :
    List pbp2p.PendingAttestation → List pbp2p.PendingAttestation × Heap
  | [] => ([], h)
  | a :: rest =>
    let bits := h.alloc (h.read a.aggregationBits)
    let root := bits.2.alloc (bits.2.read a.beaconBlockRoot)
    let r := cloneAtts root.2 rest
    (⟨bits.1, root.1, a.inclusionDelay, a.proposerIndex⟩ :: r.1, r.2)

/-- `PreviousEpochAttestations corresponding to blocks on the beacon chain.` -/
def BeaconState.PreviousEpochAttestations (b : BeaconState) (h : Heap) :
    List pbp2p.PendingAttestation × Heap :=
  cloneAtts h b.state.previousEpochAttestations

/-- `CurrentEpochAttestations corresponding to blocks on the beacon chain.` -/
def BeaconState.CurrentEpochAttestations (b : BeaconState) (h : Heap) :
    List pbp2p.PendingAttestation × Heap :=
  cloneAtts h b.state.currentEpochAttestations

/-- `JustificationBits marking which epochs have been justified in the
beacon chain.`  The source writes `res := bitfield.Bitvector4{}` — a
zero-length byte slice (the library type is a byte-slice-backed 4-bit
vector) — and then `copy(res, b.state.JustificationBits)`, which copies
`min(0, len(src)) = 0` bytes.  The returned slice holds the result of
that copy. -/
def BeaconState.JustificationBits (b : BeaconState) (h : Heap) : Loc × Heap :=
  h.alloc (goCopy [] (h.read b.state.justificationBits))

/-- `PreviousJustifiedCheckpoint denoting an epoch and block root.` -/
def BeaconState.PreviousJustifiedCheckpoint (b : BeaconState) (h : Heap) :
    ethpb.Checkpoint × Heap :=
  let root := h.alloc (normalize32 (h.read b.state.previousJustifiedCheckpoint.root))
  (⟨b.state.previousJustifiedCheckpoint.epoch, root.1⟩, root.2)

/-- `CurrentJustifiedCheckpoint denoting an epoch and block root.` -/
def BeaconState.CurrentJustifiedCheckpoint (b : BeaconState) (h : Heap) :
    ethpb.Checkpoint × Heap :=
  let root := h.alloc (normalize32 (h.read b.state.currentJustifiedCheckpoint.root))
  (⟨b.state.currentJustifiedCheckpoint.epoch, root.1⟩, root.2)

/-- `FinalizedCheckpoint denoting an epoch and block root.` -/
def BeaconState.FinalizedCheckpoint (b : BeaconState) (h : Heap) :
    ethpb.Checkpoint × Heap :=
  let root := h.alloc (normalize32 (h.read b.state.finalizedCheckpoint.root))
  (⟨b.state.finalizedCheckpoint.epoch, root.1⟩, root.2)

/-- `Clone the beacon state into a protobuf for usage.`  Struct-literal
fields are evaluated in source order, threading the heap through each
allocating accessor. -/
def BeaconState.Clone (b : BeaconState) (h : Heap) : pbp2p.BeaconState × Heap :=
  let lbh := b.LatestBlockHeader h
  let br := b.BlockRoots lbh.2
  let sr := b.StateRoots br.2
  let hr := b.HistoricalRoots sr.2
  let e1 := b.Eth1Data hr.2
  let ev := b.Eth1DataVotes e1.2
  let ba := b.Balances ev.2
  let rm := b.RandaoMixes ba.2
  let sl := b.Slashings rm.2
  let pa := b.PreviousEpochAttestations sl.2
  let ca := b.CurrentEpochAttestations pa.2
  let jb := b.JustificationBits ca.2
  let pj := b.PreviousJustifiedCheckpoint jb.2
  let cj := b.CurrentJustifiedCheckpoint pj.2
  let fc := b.FinalizedCheckpoint cj.2
  (⟨b.GenesisTime, b.Slot, b.Fork, lbh.1, br.1, sr.1, hr.1, e1.1, ev.1,
    b.Eth1DepositIndex, b.Validators, ba.1, rm.1, sl.1, pa.1, ca.1, jb.1,
    pj.1, cj.1, fc.1⟩, fc.2)

/-- Value view of a list of root slices: the dereferenced contents. -/
def rootsView (h : Heap) (ls : List Loc) : List (List Nat) := ls.map h.read

/-- Value view of a `Fork`. -/
def forkView (h : Heap) (f : pbp2p.Fork) : List Nat × List Nat × Nat :=
  (h.read f.previousVersion, h.read f.currentVersion, f.epoch)

/-- Value view of a `BeaconBlockHeader`. -/
def headerView (h : Heap) (x : ethpb.BeaconBlockHeader) :
    Nat × List Nat × List Nat × List Nat :=
  (x.slot, h.read x.parentRoot, h.read x.stateRoot, h.read x.bodyRoot)

/-- Value view of an `Eth1Data`. -/
def eth1View (h : Heap) (d : ethpb.Eth1Data) : List Nat × Nat × List Nat :=
  (h.read d.depositRoot, d.depositCount, h.read d.blockHash)

/-- Value view of a list of `Eth1Data` votes. -/
def votesView (h : Heap) (vs : List ethpb.Eth1Data) :
    List (List Nat × Nat × List Nat) :=
  vs.map (eth1View h)

/-- Value view of a `Validator`. -/
def validatorView (h : Heap) (v : ethpb.Validator) :
    List Nat × List Nat × Nat × Bool × Nat × Nat × Nat × Nat :=
  (h.read v.publicKey, h.read v.withdrawalCredentials, v.effectiveBalance,
   v.slashed, v.activationEligibilityEpoch, v.activationEpoch, v.exitEpoch,
   v.withdrawableEpoch)

/-- Value view of a validator list. -/
def validatorsView (h : Heap) (vs : List ethpb.Validator) :
    List (List Nat × List Nat × Nat × Bool × Nat × Nat × Nat × Nat) :=
  vs.map (validatorView h)

/-- Value view of a `Checkpoint`. -/
def checkpointView (h : Heap) (c : ethpb.Checkpoint) : Nat × List Nat :=
  (c.epoch, h.read c.root)

/-- Value view of a `PendingAttestation`. -/
def attView (h : Heap) (a : pbp2p.PendingAttestation) :
    List Nat × List Nat × Nat × Nat :=
  (h.read a.aggregationBits, h.read a.beaconBlockRoot, a.inclusionDelay,
   a.proposerIndex)

/-- Value view of an attestation list. -/
def attsView (h : Heap) (l : List pbp2p.PendingAttestation) :
    List (List Nat × List Nat × Nat × Nat) :=
  l.map (attView h)

/-- Value view of an entire `pbp2p.BeaconState`: every field with all
slices dereferenced.  Two states with equal views are observationally
identical to any consumer of the values. -/
def stateView (h : Heap) (s : pbp2p.BeaconState) :
    Nat × Nat × (List Nat × List Nat × Nat) ×
    (Nat × List Nat × List Nat × List Nat) ×
    List (List Nat) × List (List Nat) × List (List Nat) ×
    (List Nat × Nat × List Nat) × List (List Nat × Nat × List Nat) × Nat ×
    List (List Nat × List Nat × Nat × Bool × Nat × Nat × Nat × Nat) ×
    List Nat × List (List Nat) × List Nat ×
    List (List Nat × List Nat × Nat × Nat) ×
    List (List Nat × List Nat × Nat × Nat) × List Nat ×
    (Nat × List Nat) × (Nat × List Nat) × (Nat × List Nat) :=
  (s.genesisTime, s.slot, forkView h s.fork, headerView h s.latestBlockHeader,
   rootsView h s.blockRoots, rootsView h s.stateRoots,
   rootsView h s.historicalRoots, eth1View h s.eth1Data,
   votesView h s.eth1DataVotes, s.eth1DepositIndex,
   validatorsView h s.validators, h.read s.balances,
   rootsView h s.randaoMixes, h.read s.slashings,
   attsView h s.previousEpochAttestations,
   attsView h s.currentEpochAttestations, h.read s.justificationBits,
   checkpointView h s.previousJustifiedCheckpoint,
   checkpointView h s.currentJustifiedCheckpoint,
   checkpointView h s.finalizedCheckpoint)

/-- Well-formedness of a store against a heap: every slice location held
by the store points at an allocated array. -/
structure WF (s : pbp2p.BeaconState) (h : Heap) : Prop where
  forkPrev : s.fork.previousVersion < h.size
  forkCurr : s.fork.currentVersion < h.size
  hdrParent : s.latestBlockHeader.parentRoot < h.size
  hdrState : s.latestBlockHeader.stateRoot < h.size
  hdrBody : s.latestBlockHeader.bodyRoot < h.size
  blockRootsLt : ∀ l ∈ s.blockRoots, l < h.size
  stateRootsLt : ∀ l ∈ s.stateRoots, l < h.size
  historicalRootsLt : ∀ l ∈ s.historicalRoots, l < h.size
  eth1DepRoot : s.eth1Data.depositRoot < h.size
  eth1BlockHash : s.eth1Data.blockHash < h.size
  votesLt : ∀ v ∈ s.eth1DataVotes, v.depositRoot < h.size ∧ v.blockHash < h.size
  validatorsLt : ∀ v ∈ s.validators,
    v.publicKey < h.size ∧ v.withdrawalCredentials < h.size
  balancesLt : s.balances < h.size
  randaoMixesLt : ∀ l ∈ s.randaoMixes, l < h.size
  slashingsLt : s.slashings < h.size
  attsPrevLt : ∀ a ∈ s.previousEpochAttestations,
    a.aggregationBits < h.size ∧ a.beaconBlockRoot < h.size
  attsCurrLt : ∀ a ∈ s.currentEpochAttestations,
    a.aggregationBits < h.size ∧ a.beaconBlockRoot < h.size
  justBitsLt : s.justificationBits < h.size
  prevJustLt : s.previousJustifiedCheckpoint.root < h.size
  currJustLt : s.currentJustifiedCheckpoint.root < h.size
  finLt : s.finalizedCheckpoint.root < h.size

/-- A concrete heap used for witnesses and counterexample evaluations.
Location 0 holds a malformed 40-byte parent root, locations 21 and 22
hold malformed (short and long) roots. -/
def hEx : Heap :=
  ⟨[List.replicate 40 170, [1], [2], [0, 0, 0, 0], [0, 0, 0, 1],
    [10], [11], [12], [13],
    [1, 2, 3], [4], [5], [6], [7], [8],
    [32000000000, 31500000000, 32000000000], [0, 0], [15], [21], [22], [23],
    List.replicate 5 1, List.replicate 40 2, [], [3], [1, 1], [9]]⟩

/-- A concrete store over `hEx` exercising every field, including the
stored deposit count 7 distinct from the single vote's stored count 5,
distinct state and body header roots, and three validators with
balances matching the spec's concrete scenario. -/
def bEx : BeaconState :=
  ⟨{ genesisTime := 1606824023
     slot := 12345
     fork := ⟨3, 4, 100⟩
     latestBlockHeader := ⟨12344, 0, 1, 2⟩
     blockRoots := [21]
     stateRoots := [22]
     historicalRoots := [23]
     eth1Data := ⟨5, 7, 6⟩
     eth1DataVotes := [⟨7, 5, 8⟩]
     eth1DepositIndex := 42
     validators := [⟨9, 10, 32000000000, false, 0, 0, 100, 200⟩,
                    ⟨11, 12, 31000000000, true, 1, 2, 3, 4⟩,
                    ⟨13, 14, 32000000000, false, 0, 0, 100, 200⟩]
     balances := 15
     randaoMixes := [24]
     slashings := 16
     previousEpochAttestations := [⟨25, 26, 1, 2⟩]
     currentEpochAttestations := [⟨25, 26, 3, 4⟩]
     justificationBits := 17
     previousJustifiedCheckpoint := ⟨9, 18⟩
     currentJustifiedCheckpoint := ⟨10, 19⟩
     finalizedCheckpoint := ⟨8, 20⟩ }⟩

/-- A store whose every sequence field is empty, over the empty heap
(every location dereferences to the empty array). -/
def bEmpty : BeaconState :=
  ⟨{ genesisTime := 0
     slot := 0
     fork := ⟨0, 0, 0⟩
     latestBlockHeader := ⟨0, 0, 0, 0⟩
     blockRoots := []
     stateRoots := []
     historicalRoots := []
     eth1Data := ⟨0, 0, 0⟩
     eth1DataVotes := []
     eth1DepositIndex := 0
     validators := []
     balances := 0
     randaoMixes := []
     slashings := 0
     previousEpochAttestations := []
     currentEpochAttestations := []
     justificationBits := 0
     previousJustifiedCheckpoint := ⟨0, 0⟩
     currentJustifiedCheckpoint := ⟨0, 0⟩
     finalizedCheckpoint := ⟨0, 0⟩ }⟩

/-- The empty heap. -/
def hEmpty : Heap := ⟨[]⟩

/-- A default validator record, used only as the `getD` fallback when
indexing concrete lists in closed statements. -/
def val0 : ethpb.Validator := ⟨0, 0, 0, false, 0, 0, 0, 0⟩

/-- A default eth1 data record for `getD` fallbacks. -/
def eth1d0 : ethpb.Eth1Data := ⟨0, 0, 0⟩

theorem Heap.alloc_fst (h : Heap) (v : List Nat) : (h.alloc v).1 = h.size := rfl

theorem Heap.size_alloc (h : Heap) (v : List Nat) :
    (h.alloc v).2.size = h.size + 1 := by
  simp [Heap.alloc, Heap.size]

theorem Heap.read_alloc_old (h : Heap) (v : List Nat) (l : Loc)
    (hl : l < h.size) : (h.alloc v).2.read l = h.read l := by
  simp only [Heap.alloc, Heap.read]
  exact List.getD_append _ _ _ _ hl

theorem Heap.read_alloc_self (h : Heap) (v : List Nat) :
    (h.alloc v).2.read (h.alloc v).1 = v := by
  simp only [Heap.alloc, Heap.read]
  rw [List.getD_append_right _ _ _ _ (le_refl _)]
  simp

theorem Heap.size_write (h : Heap) (l : Loc) (v : List Nat) :
    (h.write l v).size = h.size := by
  simp [Heap.write, Heap.size]

theorem Heap.read_write_ne (h : Heap) (l l' : Loc) (v : List Nat)
    (hne : l' ≠ l) : (h.write l v).read l' = h.read l' := by
  simp only [Heap.write, Heap.read]
  rw [List.getD_eq_getElem?_getD, List.getD_eq_getElem?_getD,
    List.getElem?_set_ne (fun e => hne e.symm)]

/-- Heap extension: `h'` has at least the arrays of `h`, unchanged.
Every accessor only allocates, so it extends the heap it is given. -/
def HeapLe (h h' : Heap) : Prop :=
  h.size ≤ h'.size ∧ ∀ l, l < h.size → h'.read l = h.read l

theorem heapLe_refl (h : Heap) : HeapLe h h := ⟨le_refl _, fun _ _ => rfl⟩

theorem heapLe_trans {h1 h2 h3 : Heap} (a : HeapLe h1 h2) (b : HeapLe h2 h3) :
    HeapLe h1 h3 :=
  ⟨le_trans a.1 b.1,
   fun l hl => (b.2 l (lt_of_lt_of_le hl a.1)).trans (a.2 l hl)⟩

theorem heapLe_alloc (h : Heap) (v : List Nat) : HeapLe h (h.alloc v).2 :=
  ⟨by rw [Heap.size_alloc]; exact Nat.le_succ _,
   fun l hl => Heap.read_alloc_old h v l hl⟩

/-- Reading a freshly allocated array through any later extension of the
heap still yields the allocated contents. -/
theorem read_after {h G : Heap} (v : List Nat)
    (hG : HeapLe (h.alloc v).2 G) : G.read (h.alloc v).1 = v := by
  have hlt : (h.alloc v).1 < (h.alloc v).2.size := by
    rw [Heap.alloc_fst, Heap.size_alloc]; exact Nat.lt_succ_self _
  rw [hG.2 _ hlt, Heap.read_alloc_self]

theorem goCopy_length (dst src : List Nat) :
    (goCopy dst src).length = dst.length := by
  simp only [goCopy, List.length_append, List.length_take, List.length_drop]
  omega

theorem goCopy_nil_dst (src : List Nat) : goCopy [] src = [] := by
  simp [goCopy]

theorem goCopy_replicate_self (src : List Nat) :
    goCopy (List.replicate src.length 0) src = src := by
  simp only [goCopy, List.length_replicate, List.take_of_length_le (le_refl _),
    List.drop_replicate]
  simp

theorem normalize32_length (src : List Nat) : (normalize32 src).length = 32 := by
  rw [normalize32, goCopy_length, List.length_replicate]

theorem normalize32_pad (src : List Nat) (h : src.length ≤ 32) :
    normalize32 src = src ++ List.replicate (32 - src.length) 0 := by
  simp only [normalize32, goCopy, List.length_replicate,
    List.take_of_length_le h, List.drop_replicate]

theorem normalize32_trunc (src : List Nat) (h : 32 < src.length) :
    normalize32 src = src.take 32 := by
  simp only [normalize32, goCopy, List.length_replicate]
  rw [List.drop_eq_nil_of_le (by simpa using le_of_lt h), List.append_nil]

/-- Reading both arrays of a two-allocation sequence through any later
extension. -/
theorem read_after_two {g G : Heap} (v1 v2 : List Nat)
    (hG : HeapLe ((g.alloc v1).2.alloc v2).2 G) :
    G.read (g.alloc v1).1 = v1 ∧ G.read ((g.alloc v1).2.alloc v2).1 = v2 :=
  ⟨read_after _ (heapLe_trans (heapLe_alloc _ _) hG), read_after _ hG⟩

/-- Reading all three arrays of a three-allocation sequence through any
later extension. -/
theorem read_after_three {g G : Heap} (v1 v2 v3 : List Nat)
    (hG : HeapLe (((g.alloc v1).2.alloc v2).2.alloc v3).2 G) :
    G.read (g.alloc v1).1 = v1 ∧ G.read ((g.alloc v1).2.alloc v2).1 = v2 ∧
      G.read (((g.alloc v1).2.alloc v2).2.alloc v3).1 = v3 :=
  ⟨read_after _ (heapLe_trans (heapLe_alloc _ _) (heapLe_trans (heapLe_alloc _ _) hG)),
   read_after _ (heapLe_trans (heapLe_alloc _ _) hG),
   read_after _ hG⟩

theorem copyRoots_le (h : Heap) (ls : List Loc) : HeapLe h (copyRoots h ls).2 := by
  induction ls generalizing h with
  | nil => exact heapLe_refl h
  | cons l rest ih =>
    simp only [copyRoots]
    exact heapLe_trans (heapLe_alloc _ _) (ih _)

theorem copyVotes_le (cnt : Nat) (h : Heap) (vs : List ethpb.Eth1Data) :
    HeapLe h (copyVotes cnt h vs).2 := by
  induction vs generalizing h with
  | nil => exact heapLe_refl h
  | cons v rest ih =>
    simp only [copyVotes]
    exact heapLe_trans (heapLe_alloc _ _) (heapLe_trans (heapLe_alloc _ _) (ih _))

theorem cloneAtts_le (h : Heap) (l : List pbp2p.PendingAttestation) :
    HeapLe h (cloneAtts h l).2 := by
  induction l generalizing h with
  | nil => exact heapLe_refl h
  | cons a rest ih =>
    simp only [cloneAtts]
    exact heapLe_trans (heapLe_alloc _ _) (heapLe_trans (heapLe_alloc _ _) (ih _))

/-- Running the shared root-copy loop at any extension `g` of `h` and
viewing the result through any further extension `G` yields the
normalized images of the roots as stored in `h`. -/
theorem copyRoots_spec (ls : List Loc) {h : Heap} :
    ∀ {g G : Heap}, (∀ l ∈ ls, l < h.size) → HeapLe h g →
      HeapLe (copyRoots g ls).2 G →
      rootsView G (copyRoots g ls).1 = ls.map (fun l => normalize32 (h.read l)) := by
  induction ls with
  | nil => intro g G _ _ _; simp [copyRoots, rootsView]
  | cons l rest ih =>
    intro g G hwf hle hG
    have hl : l < h.size := hwf l (List.mem_cons_self l rest)
    have hrest : ∀ x ∈ rest, x < h.size := fun x hx => hwf x (List.mem_cons_of_mem _ hx)
    simp only [copyRoots] at hG ⊢
    rw [hle.2 _ hl] at hG ⊢
    simp only [rootsView, List.map_cons]
    have htail := ih hrest (heapLe_trans hle (heapLe_alloc _ _)) hG
    simp only [rootsView] at htail
    rw [read_after _ (heapLe_trans (copyRoots_le _ _) hG), htail]

/-- Running the vote-copy loop at any extension of `h`: every returned
vote carries the fixed count `cnt` and normalized copies of the stored
buffers. -/
theorem copyVotes_spec (cnt : Nat) (vs : List ethpb.Eth1Data) {h : Heap} :
    ∀ {g G : Heap}, (∀ v ∈ vs, v.depositRoot < h.size ∧ v.blockHash < h.size) →
      HeapLe h g → HeapLe (copyVotes cnt g vs).2 G →
      votesView G (copyVotes cnt g vs).1 =
        vs.map (fun v => (normalize32 (h.read v.depositRoot), cnt,
          normalize32 (h.read v.blockHash))) := by
  induction vs with
  | nil => intro g G _ _ _; simp [copyVotes, votesView]
  | cons v rest ih =>
    intro g G hwf hle hG
    have hv := hwf v (List.mem_cons_self v rest)
    have hrest : ∀ x ∈ rest, x.depositRoot < h.size ∧ x.blockHash < h.size :=
      fun x hx => hwf x (List.mem_cons_of_mem _ hx)
    simp only [copyVotes] at hG ⊢
    rw [hle.2 _ hv.1] at hG ⊢
    rw [Heap.read_alloc_old _ _ _ (lt_of_lt_of_le hv.2 hle.1), hle.2 _ hv.2] at hG ⊢
    simp only [votesView, List.map_cons]
    have htail := ih hrest
      (heapLe_trans hle (heapLe_trans (heapLe_alloc _ _) (heapLe_alloc _ _))) hG
    simp only [votesView] at htail
    obtain ⟨e1, e2⟩ := read_after_two _ _ (heapLe_trans (copyVotes_le _ _ _) hG)
    simp only [eth1View, e1, e2, htail]

/-- Running the attestation deep-copy loop at any extension of `h`:
every returned element's buffers hold exactly the stored contents. -/
theorem cloneAtts_spec (l : List pbp2p.PendingAttestation) {h : Heap} :
    ∀ {g G : Heap},
      (∀ a ∈ l, a.aggregationBits < h.size ∧ a.beaconBlockRoot < h.size) →
      HeapLe h g → HeapLe (cloneAtts g l).2 G →
      attsView G (cloneAtts g l).1 =
        l.map (fun a => (h.read a.aggregationBits, h.read a.beaconBlockRoot,
          a.inclusionDelay, a.proposerIndex)) := by
  induction l with
  | nil => intro g G _ _ _; simp [cloneAtts, attsView]
  | cons a rest ih =>
    intro g G hwf hle hG
    have ha := hwf a (List.mem_cons_self a rest)
    have hrest : ∀ x ∈ rest, x.aggregationBits < h.size ∧ x.beaconBlockRoot < h.size :=
      fun x hx => hwf x (List.mem_cons_of_mem _ hx)
    simp only [cloneAtts] at hG ⊢
    rw [hle.2 _ ha.1] at hG ⊢
    rw [Heap.read_alloc_old _ _ _ (lt_of_lt_of_le ha.2 hle.1), hle.2 _ ha.2] at hG ⊢
    simp only [attsView, List.map_cons]
    have htail := ih hrest
      (heapLe_trans hle (heapLe_trans (heapLe_alloc _ _) (heapLe_alloc _ _))) hG
    simp only [attsView] at htail
    obtain ⟨e1, e2⟩ := read_after_two _ _ (heapLe_trans (cloneAtts_le _ _) hG)
    simp only [attView, e1, e2, htail]

theorem latestBlockHeader_le (b : BeaconState) (h : Heap) :
    HeapLe h (b.LatestBlockHeader h).2 := by
  simp only [BeaconState.LatestBlockHeader]
  exact heapLe_trans (heapLe_alloc _ _)
    (heapLe_trans (heapLe_alloc _ _) (heapLe_alloc _ _))

theorem eth1Data_le (b : BeaconState) (h : Heap) :
    HeapLe h (b.Eth1Data h).2 := by
  simp only [BeaconState.Eth1Data]
  exact heapLe_trans (heapLe_alloc _ _) (heapLe_alloc _ _)

theorem balances_le (b : BeaconState) (h : Heap) :
    HeapLe h (b.Balances h).2 := heapLe_alloc _ _

theorem slashings_le (b : BeaconState) (h : Heap) :
    HeapLe h (b.Slashings h).2 := heapLe_alloc _ _

theorem justificationBits_le (b : BeaconState) (h : Heap) :
    HeapLe h (b.JustificationBits h).2 := heapLe_alloc _ _

theorem prevJust_le (b : BeaconState) (h : Heap) :
    HeapLe h (b.PreviousJustifiedCheckpoint h).2 := heapLe_alloc _ _

theorem currJust_le (b : BeaconState) (h : Heap) :
    HeapLe h (b.CurrentJustifiedCheckpoint h).2 := heapLe_alloc _ _

theorem finalized_le (b : BeaconState) (h : Heap) :
    HeapLe h (b.FinalizedCheckpoint h).2 := heapLe_alloc _ _

/-- `LatestBlockHeader` characterized over the base heap `h`: the
returned header's `stateRoot` holds the normalization of the STORED
body root, and its `bodyRoot` that of the STORED state root — the
cross-wiring present in the source. -/
theorem latestBlockHeader_spec (b : BeaconState) {h : Heap}
    (h1 : b.state.latestBlockHeader.parentRoot < h.size)
    (h2 : b.state.latestBlockHeader.stateRoot < h.size)
    (h3 : b.state.latestBlockHeader.bodyRoot < h.size) :
    ∀ {g G : Heap}, HeapLe h g → HeapLe (b.LatestBlockHeader g).2 G →
      headerView G (b.LatestBlockHeader g).1 =
        (b.state.latestBlockHeader.slot,
         normalize32 (h.read b.state.latestBlockHeader.parentRoot),
         normalize32 (h.read b.state.latestBlockHeader.bodyRoot),
         normalize32 (h.read b.state.latestBlockHeader.stateRoot)) := by
  intro g G hle hG
  simp only [BeaconState.LatestBlockHeader] at hG ⊢
  rw [hle.2 _ h1] at hG ⊢
  rw [Heap.read_alloc_old _ _ _ (lt_of_lt_of_le h2 hle.1), hle.2 _ h2] at hG ⊢
  rw [Heap.read_alloc_old _ _ _
        (by rw [Heap.size_alloc]; exact Nat.lt_succ_of_lt (lt_of_lt_of_le h3 hle.1)),
      Heap.read_alloc_old _ _ _ (lt_of_lt_of_le h3 hle.1), hle.2 _ h3] at hG ⊢
  obtain ⟨e1, e2, e3⟩ := read_after_three _ _ _ hG
  simp only [headerView, e1, e2, e3]

/-- `Eth1Data` characterized over the base heap. -/
theorem eth1Data_spec (b : BeaconState) {h : Heap}
    (h1 : b.state.eth1Data.depositRoot < h.size)
    (h2 : b.state.eth1Data.blockHash < h.size) :
    ∀ {g G : Heap}, HeapLe h g → HeapLe (b.Eth1Data g).2 G →
      eth1View G (b.Eth1Data g).1 =
        (normalize32 (h.read b.state.eth1Data.depositRoot),
         b.state.eth1Data.depositCount,
         normalize32 (h.read b.state.eth1Data.blockHash)) := by
  intro g G hle hG
  simp only [BeaconState.Eth1Data] at hG ⊢
  rw [hle.2 _ h1] at hG ⊢
  rw [Heap.read_alloc_old _ _ _ (lt_of_lt_of_le h2 hle.1), hle.2 _ h2] at hG ⊢
  obtain ⟨e1, e2⟩ := read_after_two _ _ hG
  simp only [eth1View, e1, e2]

/-- `Balances` characterized over the base heap: the returned slice
holds exactly the stored balances. -/
theorem balances_spec (b : BeaconState) {h : Heap}
    (hwf : b.state.balances < h.size) :
    ∀ {g G : Heap}, HeapLe h g → HeapLe (b.Balances g).2 G →
      G.read (b.Balances g).1 = h.read b.state.balances := by
  intro g G hle hG
  simp only [BeaconState.Balances] at hG ⊢
  rw [hle.2 _ hwf] at hG ⊢
  rw [read_after _ hG, goCopy_replicate_self]

/-- `Slashings` characterized over the base heap. -/
theorem slashings_spec (b : BeaconState) {h : Heap}
    (hwf : b.state.slashings < h.size) :
    ∀ {g G : Heap}, HeapLe h g → HeapLe (b.Slashings g).2 G →
      G.read (b.Slashings g).1 = h.read b.state.slashings := by
  intro g G hle hG
  simp only [BeaconState.Slashings] at hG ⊢
  rw [hle.2 _ hwf] at hG ⊢
  rw [read_after _ hG, goCopy_replicate_self]

/-- `JustificationBits` always returns an empty slice: the destination
of the `copy` is the zero-length `Bitvector4{}` literal. -/
theorem justificationBits_spec (b : BeaconState) :
    ∀ {g G : Heap}, HeapLe (b.JustificationBits g).2 G →
      G.read (b.JustificationBits g).1 = [] := by
  intro g G hG
  simp only [BeaconState.JustificationBits] at hG ⊢
  rw [read_after _ hG, goCopy_nil_dst]

theorem prevJust_spec (b : BeaconState) {h : Heap}
    (hwf : b.state.previousJustifiedCheckpoint.root < h.size) :
    ∀ {g G : Heap}, HeapLe h g → HeapLe (b.PreviousJustifiedCheckpoint g).2 G →
      checkpointView G (b.PreviousJustifiedCheckpoint g).1 =
        (b.state.previousJustifiedCheckpoint.epoch,
         normalize32 (h.read b.state.previousJustifiedCheckpoint.root)) := by
  intro g G hle hG
  simp only [BeaconState.PreviousJustifiedCheckpoint] at hG ⊢
  rw [hle.2 _ hwf] at hG ⊢
  simp only [checkpointView, read_after _ hG]

theorem currJust_spec (b : BeaconState) {h : Heap}
    (hwf : b.state.currentJustifiedCheckpoint.root < h.size) :
    ∀ {g G : Heap}, HeapLe h g → HeapLe (b.CurrentJustifiedCheckpoint g).2 G →
      checkpointView G (b.CurrentJustifiedCheckpoint g).1 =
        (b.state.currentJustifiedCheckpoint.epoch,
         normalize32 (h.read b.state.currentJustifiedCheckpoint.root)) := by
  intro g G hle hG
  simp only [BeaconState.CurrentJustifiedCheckpoint] at hG ⊢
  rw [hle.2 _ hwf] at hG ⊢
  simp only [checkpointView, read_after _ hG]

theorem finalized_spec (b : BeaconState) {h : Heap}
    (hwf : b.state.finalizedCheckpoint.root < h.size) :
    ∀ {g G : Heap}, HeapLe h g → HeapLe (b.FinalizedCheckpoint g).2 G →
      checkpointView G (b.FinalizedCheckpoint g).1 =
        (b.state.finalizedCheckpoint.epoch,
         normalize32 (h.read b.state.finalizedCheckpoint.root)) := by
  intro g G hle hG
  simp only [BeaconState.FinalizedCheckpoint] at hG ⊢
  rw [hle.2 _ hwf] at hG ⊢
  simp only [checkpointView, read_after _ hG]

/-- `Fork` viewed in any extension of `h`: same version contents — the
slice headers are shared with the store, not copied. -/
theorem fork_spec (b : BeaconState) {h G : Heap}
    (hp : b.state.fork.previousVersion < h.size)
    (hc : b.state.fork.currentVersion < h.size) (hle : HeapLe h G) :
    forkView G b.Fork =
      (h.read b.state.fork.previousVersion,
       h.read b.state.fork.currentVersion, b.state.fork.epoch) := by
  simp only [forkView, BeaconState.Fork]
  rw [hle.2 _ hp, hle.2 _ hc]

/-- `Validators` viewed in any extension of `h`: same buffer contents —
the `PublicKey` and `WithdrawalCredentials` headers are shared with the
store, not copied. -/
theorem validators_spec (b : BeaconState) {h G : Heap}
    (hwf : ∀ v ∈ b.state.validators,
      v.publicKey < h.size ∧ v.withdrawalCredentials < h.size)
    (hle : HeapLe h G) :
    validatorsView G b.Validators =
      b.state.validators.map (fun v =>
        (h.read v.publicKey, h.read v.withdrawalCredentials, v.effectiveBalance,
         v.slashed, v.activationEligibilityEpoch, v.activationEpoch, v.exitEpoch,
         v.withdrawableEpoch)) := by
  simp only [validatorsView, BeaconState.Validators, List.map_map]
  refine List.map_congr_left ?_
  intro v hv
  simp only [Function.comp, validatorView]
  rw [hle.2 _ (hwf v hv).1, hle.2 _ (hwf v hv).2]

theorem blockRoots_le (b : BeaconState) (h : Heap) :
    HeapLe h (b.BlockRoots h).2 := copyRoots_le h _

theorem stateRoots_le (b : BeaconState) (h : Heap) :
    HeapLe h (b.StateRoots h).2 := copyRoots_le h _

theorem historicalRoots_le (b : BeaconState) (h : Heap) :
    HeapLe h (b.HistoricalRoots h).2 := copyRoots_le h _

theorem randaoMixes_le (b : BeaconState) (h : Heap) :
    HeapLe h (b.RandaoMixes h).2 := copyRoots_le h _

theorem eth1DataVotes_le (b : BeaconState) (h : Heap) :
    HeapLe h (b.Eth1DataVotes h).2 := copyVotes_le _ h _

theorem prevAtts_le (b : BeaconState) (h : Heap) :
    HeapLe h (b.PreviousEpochAttestations h).2 := cloneAtts_le h _

theorem currAtts_le (b : BeaconState) (h : Heap) :
    HeapLe h (b.CurrentEpochAttestations h).2 := cloneAtts_le h _

theorem blockRoots_spec (b : BeaconState) {h : Heap}
    (hwf : ∀ l ∈ b.state.blockRoots, l < h.size) :
    ∀ {g G : Heap}, HeapLe h g → HeapLe (b.BlockRoots g).2 G →
      rootsView G (b.BlockRoots g).1 =
        b.state.blockRoots.map (fun l => normalize32 (h.read l)) :=
  fun hle hG => copyRoots_spec _ hwf hle hG

theorem stateRoots_spec (b : BeaconState) {h : Heap}
    (hwf : ∀ l ∈ b.state.stateRoots, l < h.size) :
    ∀ {g G : Heap}, HeapLe h g → HeapLe (b.StateRoots g).2 G →
      rootsView G (b.StateRoots g).1 =
        b.state.stateRoots.map (fun l => normalize32 (h.read l)) :=
  fun hle hG => copyRoots_spec _ hwf hle hG

theorem historicalRoots_spec (b : BeaconState) {h : Heap}
    (hwf : ∀ l ∈ b.state.historicalRoots, l < h.size) :
    ∀ {g G : Heap}, HeapLe h g → HeapLe (b.HistoricalRoots g).2 G →
      rootsView G (b.HistoricalRoots g).1 =
        b.state.historicalRoots.map (fun l => normalize32 (h.read l)) :=
  fun hle hG => copyRoots_spec _ hwf hle hG

theorem randaoMixes_spec (b : BeaconState) {h : Heap}
    (hwf : ∀ l ∈ b.state.randaoMixes, l < h.size) :
    ∀ {g G : Heap}, HeapLe h g → HeapLe (b.RandaoMixes g).2 G →
      rootsView G (b.RandaoMixes g).1 =
        b.state.randaoMixes.map (fun l => normalize32 (h.read l)) :=
  fun hle hG => copyRoots_spec _ hwf hle hG

theorem eth1DataVotes_spec (b : BeaconState) {h : Heap}
    (hwf : ∀ v ∈ b.state.eth1DataVotes,
      v.depositRoot < h.size ∧ v.blockHash < h.size) :
    ∀ {g G : Heap}, HeapLe h g → HeapLe (b.Eth1DataVotes g).2 G →
      votesView G (b.Eth1DataVotes g).1 =
        b.state.eth1DataVotes.map (fun v =>
          (normalize32 (h.read v.depositRoot), b.state.eth1Data.depositCount,
           normalize32 (h.read v.blockHash))) :=
  fun hle hG => copyVotes_spec _ _ hwf hle hG

theorem prevAtts_spec (b : BeaconState) {h : Heap}
    (hwf : ∀ a ∈ b.state.previousEpochAttestations,
      a.aggregationBits < h.size ∧ a.beaconBlockRoot < h.size) :
    ∀ {g G : Heap}, HeapLe h g → HeapLe (b.PreviousEpochAttestations g).2 G →
      attsView G (b.PreviousEpochAttestations g).1 =
        b.state.previousEpochAttestations.map (fun a =>
          (h.read a.aggregationBits, h.read a.beaconBlockRoot,
           a.inclusionDelay, a.proposerIndex)) :=
  fun hle hG => cloneAtts_spec _ hwf hle hG

theorem currAtts_spec (b : BeaconState) {h : Heap}
    (hwf : ∀ a ∈ b.state.currentEpochAttestations,
      a.aggregationBits < h.size ∧ a.beaconBlockRoot < h.size) :
    ∀ {g G : Heap}, HeapLe h g → HeapLe (b.CurrentEpochAttestations g).2 G →
      attsView G (b.CurrentEpochAttestations g).1 =
        b.state.currentEpochAttestations.map (fun a =>
          (h.read a.aggregationBits, h.read a.beaconBlockRoot,
           a.inclusionDelay, a.proposerIndex)) :=
  fun hle hG => cloneAtts_spec _ hwf hle hG

/-- C6: for every store, the record returned by `Clone` is
field-for-field equal (as dereferenced values) to the tuple of results
of calling every individual accessor operation on that same store at
that same instant. -/
theorem clone_matches_accessors (b : BeaconState) (h : Heap)
    (hwf : WF b.state h) :
    stateView (b.Clone h).2 (b.Clone h).1 =
      (b.GenesisTime, b.Slot, forkView h b.Fork,
       headerView (b.LatestBlockHeader h).2 (b.LatestBlockHeader h).1,
       rootsView (b.BlockRoots h).2 (b.BlockRoots h).1,
       rootsView (b.StateRoots h).2 (b.StateRoots h).1,
       rootsView (b.HistoricalRoots h).2 (b.HistoricalRoots h).1,
       eth1View (b.Eth1Data h).2 (b.Eth1Data h).1,
       votesView (b.Eth1DataVotes h).2 (b.Eth1DataVotes h).1,
       b.Eth1DepositIndex,
       validatorsView h b.Validators,
       (b.Balances h).2.read (b.Balances h).1,
       rootsView (b.RandaoMixes h).2 (b.RandaoMixes h).1,
       (b.Slashings h).2.read (b.Slashings h).1,
       attsView (b.PreviousEpochAttestations h).2 (b.PreviousEpochAttestations h).1,
       attsView (b.CurrentEpochAttestations h).2 (b.CurrentEpochAttestations h).1,
       (b.JustificationBits h).2.read (b.JustificationBits h).1,
       checkpointView (b.PreviousJustifiedCheckpoint h).2
         (b.PreviousJustifiedCheckpoint h).1,
       checkpointView (b.CurrentJustifiedCheckpoint h).2
         (b.CurrentJustifiedCheckpoint h).1,
       checkpointView (b.FinalizedCheckpoint h).2
         (b.FinalizedCheckpoint h).1) := by
  obtain ⟨wfFP, wfFC, wfHP, wfHS, wfHB, wfBR, wfSR, wfHR, wfED, wfEB, wfV,
    wfVal, wfBal, wfRM, wfSl, wfPA, wfCA, wfJB, wfPJ, wfCJ, wfFin⟩ := hwf
  simp only [BeaconState.Clone]
  set h1 := (b.LatestBlockHeader h).2 with eh1
  set h2 := (b.BlockRoots h1).2 with eh2
  set h3 := (b.StateRoots h2).2 with eh3
  set h4 := (b.HistoricalRoots h3).2 with eh4
  set h5 := (b.Eth1Data h4).2 with eh5
  set h6 := (b.Eth1DataVotes h5).2 with eh6
  set h7 := (b.Balances h6).2 with eh7
  set h8 := (b.RandaoMixes h7).2 with eh8
  set h9 := (b.Slashings h8).2 with eh9
  set h10 := (b.PreviousEpochAttestations h9).2 with eh10
  set h11 := (b.CurrentEpochAttestations h10).2 with eh11
  set h12 := (b.JustificationBits h11).2 with eh12
  set h13 := (b.PreviousJustifiedCheckpoint h12).2 with eh13
  set h14 := (b.CurrentJustifiedCheckpoint h13).2 with eh14
  set h15 := (b.FinalizedCheckpoint h14).2 with eh15
  have s15 : HeapLe h15 h15 := heapLe_refl _
  have s14 : HeapLe h14 h15 := finalized_le b h14
  have s13 : HeapLe h13 h15 := heapLe_trans (currJust_le b h13) s14
  have s12 : HeapLe h12 h15 := heapLe_trans (prevJust_le b h12) s13
  have s11 : HeapLe h11 h15 := heapLe_trans (justificationBits_le b h11) s12
  have s10 : HeapLe h10 h15 := heapLe_trans (currAtts_le b h10) s11
  have s9 : HeapLe h9 h15 := heapLe_trans (prevAtts_le b h9) s10
  have s8 : HeapLe h8 h15 := heapLe_trans (slashings_le b h8) s9
  have s7 : HeapLe h7 h15 := heapLe_trans (randaoMixes_le b h7) s8
  have s6 : HeapLe h6 h15 := heapLe_trans (balances_le b h6) s7
  have s5 : HeapLe h5 h15 := heapLe_trans (eth1DataVotes_le b h5) s6
  have s4 : HeapLe h4 h15 := heapLe_trans (eth1Data_le b h4) s5
  have s3 : HeapLe h3 h15 := heapLe_trans (historicalRoots_le b h3) s4
  have s2 : HeapLe h2 h15 := heapLe_trans (stateRoots_le b h2) s3
  have s1 : HeapLe h1 h15 := heapLe_trans (blockRoots_le b h1) s2
  have p1 : HeapLe h h1 := latestBlockHeader_le b h
  have p2 : HeapLe h h2 := heapLe_trans p1 (blockRoots_le b h1)
  have p3 : HeapLe h h3 := heapLe_trans p2 (stateRoots_le b h2)
  have p4 : HeapLe h h4 := heapLe_trans p3 (historicalRoots_le b h3)
  have p5 : HeapLe h h5 := heapLe_trans p4 (eth1Data_le b h4)
  have p6 : HeapLe h h6 := heapLe_trans p5 (eth1DataVotes_le b h5)
  have p7 : HeapLe h h7 := heapLe_trans p6 (balances_le b h6)
  have p8 : HeapLe h h8 := heapLe_trans p7 (randaoMixes_le b h7)
  have p9 : HeapLe h h9 := heapLe_trans p8 (slashings_le b h8)
  have p10 : HeapLe h h10 := heapLe_trans p9 (prevAtts_le b h9)
  have p11 : HeapLe h h11 := heapLe_trans p10 (currAtts_le b h10)
  have p12 : HeapLe h h12 := heapLe_trans p11 (justificationBits_le b h11)
  have p13 : HeapLe h h13 := heapLe_trans p12 (prevJust_le b h12)
  have p14 : HeapLe h h14 := heapLe_trans p13 (currJust_le b h13)
  have p15 : HeapLe h h15 := heapLe_trans p14 (finalized_le b h14)
  simp only [stateView, Prod.mk.injEq, true_and, and_true]
  refine ⟨?_, ?_, ?_, ?_, ?_, ?_, ?_, ?_, ?_, ?_, ?_, ?_, ?_, ?_, ?_, ?_, ?_⟩
  · rw [fork_spec b wfFP wfFC p15, fork_spec b wfFP wfFC (heapLe_refl h)]
  · rw [latestBlockHeader_spec b wfHP wfHS wfHB (heapLe_refl h) s1,
      latestBlockHeader_spec b wfHP wfHS wfHB (heapLe_refl h) (heapLe_refl h1)]
  · rw [blockRoots_spec b wfBR p1 s2, blockRoots_spec b wfBR (heapLe_refl h)
      (heapLe_refl ((b.BlockRoots h).2))]
  · rw [stateRoots_spec b wfSR p2 s3, stateRoots_spec b wfSR (heapLe_refl h)
      (heapLe_refl ((b.StateRoots h).2))]
  · rw [historicalRoots_spec b wfHR p3 s4, historicalRoots_spec b wfHR
      (heapLe_refl h) (heapLe_refl ((b.HistoricalRoots h).2))]
  · rw [eth1Data_spec b wfED wfEB p4 s5, eth1Data_spec b wfED wfEB
      (heapLe_refl h) (heapLe_refl ((b.Eth1Data h).2))]
  · rw [eth1DataVotes_spec b wfV p5 s6, eth1DataVotes_spec b wfV
      (heapLe_refl h) (heapLe_refl ((b.Eth1DataVotes h).2))]
  · rw [validators_spec b wfVal p15, validators_spec b wfVal (heapLe_refl h)]
  · rw [balances_spec b wfBal p6 s7, balances_spec b wfBal (heapLe_refl h)
      (heapLe_refl ((b.Balances h).2))]
  · rw [randaoMixes_spec b wfRM p7 s8, randaoMixes_spec b wfRM (heapLe_refl h)
      (heapLe_refl ((b.RandaoMixes h).2))]
  · rw [slashings_spec b wfSl p8 s9, slashings_spec b wfSl (heapLe_refl h)
      (heapLe_refl ((b.Slashings h).2))]
  · rw [prevAtts_spec b wfPA p9 s10, prevAtts_spec b wfPA (heapLe_refl h)
      (heapLe_refl ((b.PreviousEpochAttestations h).2))]
  · rw [currAtts_spec b wfCA p10 s11, currAtts_spec b wfCA (heapLe_refl h)
      (heapLe_refl ((b.CurrentEpochAttestations h).2))]
  · rw [justificationBits_spec b s12, justificationBits_spec b
      (heapLe_refl ((b.JustificationBits h).2))]
  · rw [prevJust_spec b wfPJ p12 s13, prevJust_spec b wfPJ (heapLe_refl h)
      (heapLe_refl ((b.PreviousJustifiedCheckpoint h).2))]
  · rw [currJust_spec b wfCJ p13 s14, currJust_spec b wfCJ (heapLe_refl h)
      (heapLe_refl ((b.CurrentJustifiedCheckpoint h).2))]
  · rw [finalized_spec b wfFin p14 s15, finalized_spec b wfFin (heapLe_refl h)
      (heapLe_refl ((b.FinalizedCheckpoint h).2))]

/-- The concrete store `bEx` is well-formed over `hEx`. -/
theorem wfEx : WF bEx.state hEx := by
  constructor <;> decide

/-- Every element produced by the shared root-copy loop has length 32,
for any store contents whatsoever (including malformed stored widths). -/
theorem copyRoots_len (ls : List Loc) :
    ∀ {h G : Heap}, HeapLe (copyRoots h ls).2 G →
      ∀ r ∈ rootsView G (copyRoots h ls).1, r.length = 32 := by
  induction ls with
  | nil =>
    intro h G _ r hr
    simp [copyRoots, rootsView] at hr
  | cons l rest ih =>
    intro h G hG r hr
    simp only [copyRoots] at hG hr
    simp only [rootsView, List.map_cons, List.mem_cons] at hr
    rcases hr with hr | hr
    · rw [hr, read_after _ (heapLe_trans (copyRoots_le _ _) hG)]
      exact normalize32_length _
    · exact ih hG r (by simpa [rootsView] using hr)

/-- C5: the root-normalization operation applied on every read path is
pure and total: every input of length at most 32 (including empty) is
returned zero-padded on the right to exactly 32 bytes, every longer
input is silently truncated to its first 32 bytes; in particular the
store whose `latest_block_header.parent_root` is a 40-byte buffer of
`0xAA` yields exactly 32 bytes of `0xAA` from the accessor. -/
theorem normalize_root_spec :
    (∀ src : List Nat, (normalize32 src).length = 32) ∧
    (∀ src : List Nat, src.length ≤ 32 →
      normalize32 src = src ++ List.replicate (32 - src.length) 0) ∧
    (∀ src : List Nat, 32 < src.length → normalize32 src = src.take 32) ∧
    (bEx.LatestBlockHeader hEx).2.read
        (bEx.LatestBlockHeader hEx).1.parentRoot =
      List.replicate 32 170 :=
  ⟨normalize32_length, normalize32_pad, normalize32_trunc, by decide⟩

/-- Witness for C5 at concrete inputs of length 5, 0 and 40. -/
theorem normalize_root_spec_witness :
    ((normalize32 (List.replicate 5 6)).length = 32) ∧
    (normalize32 (List.replicate 5 6) =
      List.replicate 5 6 ++ List.replicate 27 0) ∧
    (normalize32 ([] : List Nat) = [] ++ List.replicate 32 0) ∧
    (normalize32 (List.replicate 40 7) = (List.replicate 40 7).take 32) :=
  ⟨normalize_root_spec.1 _,
   normalize_root_spec.2.1 _ (by decide),
   normalize_root_spec.2.1 _ (by decide),
   normalize_root_spec.2.2.1 _ (by decide)⟩

/-- Witness for C6 at the concrete store `bEx`. -/
theorem clone_matches_accessors_witness :
    WF bEx.state hEx ∧
    stateView (bEx.Clone hEx).2 (bEx.Clone hEx).1 =
      (bEx.GenesisTime, bEx.Slot, forkView hEx bEx.Fork,
       headerView (bEx.LatestBlockHeader hEx).2 (bEx.LatestBlockHeader hEx).1,
       rootsView (bEx.BlockRoots hEx).2 (bEx.BlockRoots hEx).1,
       rootsView (bEx.StateRoots hEx).2 (bEx.StateRoots hEx).1,
       rootsView (bEx.HistoricalRoots hEx).2 (bEx.HistoricalRoots hEx).1,
       eth1View (bEx.Eth1Data hEx).2 (bEx.Eth1Data hEx).1,
       votesView (bEx.Eth1DataVotes hEx).2 (bEx.Eth1DataVotes hEx).1,
       bEx.Eth1DepositIndex,
       validatorsView hEx bEx.Validators,
       (bEx.Balances hEx).2.read (bEx.Balances hEx).1,
       rootsView (bEx.RandaoMixes hEx).2 (bEx.RandaoMixes hEx).1,
       (bEx.Slashings hEx).2.read (bEx.Slashings hEx).1,
       attsView (bEx.PreviousEpochAttestations hEx).2
         (bEx.PreviousEpochAttestations hEx).1,
       attsView (bEx.CurrentEpochAttestations hEx).2
         (bEx.CurrentEpochAttestations hEx).1,
       (bEx.JustificationBits hEx).2.read (bEx.JustificationBits hEx).1,
       checkpointView (bEx.PreviousJustifiedCheckpoint hEx).2
         (bEx.PreviousJustifiedCheckpoint hEx).1,
       checkpointView (bEx.CurrentJustifiedCheckpoint hEx).2
         (bEx.CurrentJustifiedCheckpoint hEx).1,
       checkpointView (bEx.FinalizedCheckpoint hEx).2
         (bEx.FinalizedCheckpoint hEx).1) :=
  ⟨wfEx, clone_matches_accessors bEx hEx wfEx⟩

/-- C8: `Balances` returns a newly allocated sequence equal
element-for-element to the store's balances, and overwriting the
returned backing array with any contents (e.g. the list with a fourth
element appended) does not change what a second `Balances` call
returns. -/
theorem balances_independent_copy (b : BeaconState) (h : Heap)
    (hb : b.state.balances < h.size) (vs : List Nat) :
    (b.Balances h).2.read (b.Balances h).1 = h.read b.state.balances ∧
    ((b.Balances ((b.Balances h).2.write (b.Balances h).1 vs)).2.read
        (b.Balances ((b.Balances h).2.write (b.Balances h).1 vs)).1 =
      h.read b.state.balances) := by
  refine ⟨balances_spec b hb (heapLe_refl h) (heapLe_refl _), ?_⟩
  have hb1 : (b.Balances h).1 = h.size := rfl
  have hsz : b.state.balances <
      ((b.Balances h).2.write (b.Balances h).1 vs).size := by
    rw [Heap.size_write]
    have e : (b.Balances h).2.size = h.size + 1 := Heap.size_alloc _ _
    rw [e]
    exact Nat.lt_succ_of_lt hb
  have hread : ((b.Balances h).2.write (b.Balances h).1 vs).read
      b.state.balances = h.read b.state.balances := by
    rw [Heap.read_write_ne _ _ _ _ (by rw [hb1]; exact Nat.ne_of_lt hb)]
    exact Heap.read_alloc_old h _ _ hb
  rw [balances_spec b hsz (heapLe_refl _) (heapLe_refl _), hread]

/-- Witness for C8: the spec's concrete scenario — three balances,
appending a fourth to the returned copy, a second call still sees the
original three. -/
theorem balances_independent_copy_witness :
    bEx.state.balances < hEx.size ∧
    ((bEx.Balances hEx).2.read (bEx.Balances hEx).1 =
      [32000000000, 31500000000, 32000000000]) ∧
    ((bEx.Balances ((bEx.Balances hEx).2.write (bEx.Balances hEx).1
          [32000000000, 31500000000, 32000000000, 0])).2.read
        (bEx.Balances ((bEx.Balances hEx).2.write (bEx.Balances hEx).1
          [32000000000, 31500000000, 32000000000, 0])).1 =
      [32000000000, 31500000000, 32000000000]) := by
  have hb : bEx.state.balances < hEx.size := by decide
  have H := balances_independent_copy bEx hEx hb
    [32000000000, 31500000000, 32000000000, 0]
  refine ⟨hb, ?_, ?_⟩
  · rw [H.1]; decide
  · rw [H.2]; decide

/-- C9: every root-returning accessor is total and every root it
returns has length exactly 32, no matter how malformed the stored
buffer widths are. -/
theorem root_accessors_total_32 (b : BeaconState) (h : Heap) :
    (∀ r ∈ rootsView (b.BlockRoots h).2 (b.BlockRoots h).1, r.length = 32) ∧
    (∀ r ∈ rootsView (b.StateRoots h).2 (b.StateRoots h).1, r.length = 32) ∧
    (∀ r ∈ rootsView (b.HistoricalRoots h).2 (b.HistoricalRoots h).1,
      r.length = 32) ∧
    (∀ r ∈ rootsView (b.RandaoMixes h).2 (b.RandaoMixes h).1, r.length = 32) ∧
    ((b.Eth1Data h).2.read (b.Eth1Data h).1.depositRoot).length = 32 ∧
    ((b.Eth1Data h).2.read (b.Eth1Data h).1.blockHash).length = 32 ∧
    ((b.LatestBlockHeader h).2.read
      (b.LatestBlockHeader h).1.parentRoot).length = 32 ∧
    ((b.LatestBlockHeader h).2.read
      (b.LatestBlockHeader h).1.stateRoot).length = 32 ∧
    ((b.LatestBlockHeader h).2.read
      (b.LatestBlockHeader h).1.bodyRoot).length = 32 ∧
    ((b.PreviousJustifiedCheckpoint h).2.read
      (b.PreviousJustifiedCheckpoint h).1.root).length = 32 ∧
    ((b.CurrentJustifiedCheckpoint h).2.read
      (b.CurrentJustifiedCheckpoint h).1.root).length = 32 ∧
    ((b.FinalizedCheckpoint h).2.read
      (b.FinalizedCheckpoint h).1.root).length = 32 := by
  refine ⟨copyRoots_len b.state.blockRoots (heapLe_refl _),
    copyRoots_len b.state.stateRoots (heapLe_refl _),
    copyRoots_len b.state.historicalRoots (heapLe_refl _),
    copyRoots_len b.state.randaoMixes (heapLe_refl _),
    ?_, ?_, ?_, ?_, ?_, ?_, ?_, ?_⟩
  · simp only [BeaconState.Eth1Data]
    rw [read_after _ (heapLe_alloc _ _)]
    exact normalize32_length _
  · simp only [BeaconState.Eth1Data]
    rw [Heap.read_alloc_self]
    exact normalize32_length _
  · simp only [BeaconState.LatestBlockHeader]
    rw [read_after _ (heapLe_trans (heapLe_alloc _ _) (heapLe_alloc _ _))]
    exact normalize32_length _
  · simp only [BeaconState.LatestBlockHeader]
    rw [Heap.read_alloc_self]
    exact normalize32_length _
  · simp only [BeaconState.LatestBlockHeader]
    rw [read_after _ (heapLe_alloc _ _)]
    exact normalize32_length _
  · simp only [BeaconState.PreviousJustifiedCheckpoint]
    rw [Heap.read_alloc_self]
    exact normalize32_length _
  · simp only [BeaconState.CurrentJustifiedCheckpoint]
    rw [Heap.read_alloc_self]
    exact normalize32_length _
  · simp only [BeaconState.FinalizedCheckpoint]
    rw [Heap.read_alloc_self]
    exact normalize32_length _

/-- Witness for C9 at `bEx`, whose stored block root has length 5 and
stored state root has length 40. -/
theorem root_accessors_total_32_witness :
    ((rootsView (bEx.BlockRoots hEx).2 (bEx.BlockRoots hEx).1).getD 0
      []).length = 32 ∧
    ((rootsView (bEx.StateRoots hEx).2 (bEx.StateRoots hEx).1).getD 0
      []).length = 32 := by
  have H := root_accessors_total_32 bEx hEx
  exact ⟨H.1 _ (by decide), H.2.1 _ (by decide)⟩

/-- C10: every sequence-returning accessor maps an empty stored
sequence to an empty returned sequence, never an error or an absent
value. -/
theorem accessors_empty (b : BeaconState) (h : Heap)
    (h1 : b.state.blockRoots = []) (h2 : b.state.stateRoots = [])
    (h3 : b.state.historicalRoots = []) (h4 : b.state.eth1DataVotes = [])
    (h5 : b.state.validators = []) (h6 : h.read b.state.balances = [])
    (h7 : b.state.randaoMixes = []) (h8 : h.read b.state.slashings = [])
    (h9 : b.state.previousEpochAttestations = [])
    (h10 : b.state.currentEpochAttestations = []) :
    (b.BlockRoots h).1 = [] ∧ (b.StateRoots h).1 = [] ∧
    (b.HistoricalRoots h).1 = [] ∧ (b.Eth1DataVotes h).1 = [] ∧
    b.Validators = [] ∧
    (b.Balances h).2.read (b.Balances h).1 = [] ∧
    (b.RandaoMixes h).1 = [] ∧
    (b.Slashings h).2.read (b.Slashings h).1 = [] ∧
    (b.PreviousEpochAttestations h).1 = [] ∧
    (b.CurrentEpochAttestations h).1 = [] := by
  refine ⟨?_, ?_, ?_, ?_, ?_, ?_, ?_, ?_, ?_, ?_⟩
  · simp [BeaconState.BlockRoots, h1, copyRoots]
  · simp [BeaconState.StateRoots, h2, copyRoots]
  · simp [BeaconState.HistoricalRoots, h3, copyRoots]
  · simp [BeaconState.Eth1DataVotes, h4, copyVotes]
  · simp [BeaconState.Validators, h5]
  · simp only [BeaconState.Balances, h6, Heap.read_alloc_self]
    simp [goCopy]
  · simp [BeaconState.RandaoMixes, h7, copyRoots]
  · simp only [BeaconState.Slashings, h8, Heap.read_alloc_self]
    simp [goCopy]
  · simp [BeaconState.PreviousEpochAttestations, h9, cloneAtts]
  · simp [BeaconState.CurrentEpochAttestations, h10, cloneAtts]

/-- Witness for C10 at the all-empty store `bEmpty` over the empty
heap. -/
theorem accessors_empty_witness :
    (bEmpty.BlockRoots hEmpty).1 = [] ∧ (bEmpty.StateRoots hEmpty).1 = [] ∧
    (bEmpty.HistoricalRoots hEmpty).1 = [] ∧
    (bEmpty.Eth1DataVotes hEmpty).1 = [] ∧
    bEmpty.Validators = [] ∧
    (bEmpty.Balances hEmpty).2.read (bEmpty.Balances hEmpty).1 = [] ∧
    (bEmpty.RandaoMixes hEmpty).1 = [] ∧
    (bEmpty.Slashings hEmpty).2.read (bEmpty.Slashings hEmpty).1 = [] ∧
    (bEmpty.PreviousEpochAttestations hEmpty).1 = [] ∧
    (bEmpty.CurrentEpochAttestations hEmpty).1 = [] :=
  accessors_empty bEmpty hEmpty (by decide) (by decide) (by decide)
    (by decide) (by decide) (by decide) (by decide) (by decide)
    (by decide) (by decide)

set_option synthInstance.maxSize 40000

/-- C1 (violated by the code): at the concrete store `bEx` — whose
stored state root is `[1]` and stored body root is `[2]` — the header
returned by `LatestBlockHeader` carries `stateRoot` rebuilt from the
stored BODY root and `bodyRoot` rebuilt from the stored STATE root,
not from the same-named stored fields. -/
theorem latestBlockHeader_swaps_roots :
    ((bEx.LatestBlockHeader hEx).2.read
        (bEx.LatestBlockHeader hEx).1.stateRoot =
      normalize32 (hEx.read bEx.state.latestBlockHeader.bodyRoot)) ∧
    ((bEx.LatestBlockHeader hEx).2.read
        (bEx.LatestBlockHeader hEx).1.bodyRoot =
      normalize32 (hEx.read bEx.state.latestBlockHeader.stateRoot)) ∧
    ((bEx.LatestBlockHeader hEx).2.read
        (bEx.LatestBlockHeader hEx).1.stateRoot ≠
      normalize32 (hEx.read bEx.state.latestBlockHeader.stateRoot)) := by
  decide

/-- C2 (violated by the code): at `bEx` — the store's eth1 data has
deposit count 7 while its single stored vote has deposit count 5 — the
vote returned by `Eth1DataVotes` carries the store-level count 7, not
the vote's own count. -/
theorem eth1DataVotes_global_count :
    ((bEx.Eth1DataVotes hEx).1.getD 0 eth1d0).depositCount = 7 ∧
    (bEx.state.eth1DataVotes.getD 0 eth1d0).depositCount = 5 := by
  decide

/-- C3 (violated by the code): at `bEx` — whose stored justification
bits are the byte `[15]`, all four bits set — `JustificationBits`
returns the empty vector: the copy destination `Bitvector4{}` has
length zero. -/
theorem justificationBits_empty :
    ((bEx.JustificationBits hEx).2.read (bEx.JustificationBits hEx).1 = []) ∧
    (hEx.read bEx.state.justificationBits = [15]) := by
  decide

/-- C4 (violated by the code): the first validator returned by
`Validators` holds the very same `publicKey` buffer location as the
stored validator record (the byte buffer aliases the store), and
overwriting that buffer changes what a second `Validators` call
observes. -/
theorem validators_alias_store :
    ((bEx.Validators.getD 0 val0).publicKey =
      (bEx.state.validators.getD 0 val0).publicKey) ∧
    (validatorsView (hEx.write (bEx.Validators.getD 0 val0).publicKey
        [7, 7, 7]) bEx.Validators ≠
      validatorsView hEx bEx.Validators) := by
  decide

/-- C7 (violated by the code): two successive `Clone` calls with no
intervening mutation are field-for-field equal as values, but they
share the stored validators' `publicKey` buffers with each other and
with the store; overwriting that buffer through the first clone
changes what the second clone observes. -/
theorem clones_share_validator_buffers :
    (stateView (bEx.Clone hEx).2 (bEx.Clone hEx).1 =
      stateView (bEx.Clone (bEx.Clone hEx).2).2
        (bEx.Clone (bEx.Clone hEx).2).1) ∧
    (((bEx.Clone hEx).1.validators.getD 0 val0).publicKey =
      ((bEx.Clone (bEx.Clone hEx).2).1.validators.getD 0 val0).publicKey) ∧
    (validatorsView ((bEx.Clone (bEx.Clone hEx).2).2.write
        ((bEx.Clone hEx).1.validators.getD 0 val0).publicKey [7, 7, 7])
        (bEx.Clone (bEx.Clone hEx).2).1.validators ≠
      validatorsView (bEx.Clone (bEx.Clone hEx).2).2
        (bEx.Clone (bEx.Clone hEx).2).1.validators) := by
  refine ⟨rfl, by decide, by decide⟩
